import Mathlib

/-!
Verification of the `encoder_localization` node
(`src/packages/encoder_localization/src/encoder_localization.py`).

The node keeps per-wheel tick trackers, accumulates wheel travel
distances, derives a heading `theta` with numpy's floating modulus, and
stores a transform message that a fixed-rate loop republishes.  Machine
floats are modelled as real numbers; raw tick counts and timestamps are
integers.  The callback is modelled as a function returning
`Except EncoderState EncoderState`: `.ok` is a normal return carrying
the new node state, `.error` models the `raise NameError` path and
carries the node state as it is at the moment the exception is thrown
(every field mutation in the Python callback happens inside the
`left` / `right` branches or after the `if`, so the error value is built
from the state exactly as the statements before the `raise` left it).
-/

namespace EncoderLocalization

/-- numpy's `np.mod` on floats: `np.mod(a, b) = a - b * floor(a / b)`
(result has the sign of `b`; for `b > 0` it lies in `[0, b)`). -/
noncomputable def fmod (a b : ℝ) : ℝ := a - b * ⌊a / b⌋

/-- `self.encoder_resolution = 135` set in `__init__`. -/
def encoder_resolution : ℕ := 135

/-- The calibration parameters loaded in `get_calib_params`
(`baseline` and `radius` from the kinematics yaml file). -/
structure Params where
  baseline : ℝ
  radius : ℝ

/-- A `WheelEncoderStamped` message: `msg.data` is the raw cumulative
tick count, `msg.header.stamp` its timestamp. -/
structure WheelMsg where
  data : ℤ
  stamp : ℤ

/-- The fields of the `TransformStamped` message that the callback
assigns (`header.stamp`, `header.frame_id`, `child_frame_id`); the
translation and rotation fields are left commented out in the source. -/
structure TransformMsg where
  stamp : ℤ
  frame_id : String
  child_frame_id : String
deriving DecidableEq

/-- The mutable instance fields of the `EncoderLocalization` node that
the callback and the run loop touch.  `transform_msg` is `none` until
the first callback creates the attribute. -/
structure EncoderState where
  encoder_received : Bool
  initialised_ticks_left : Bool
  total_ticks_left : ℤ
  initial_ticks_left : ℤ
  wheel_distance_left : ℝ
  initialised_ticks_right : Bool
  total_ticks_right : ℤ
  initial_ticks_right : ℤ
  wheel_distance_right : ℝ
  theta : ℝ
  transform_msg : Option TransformMsg

/-- The state set up by `__init__`. -/
noncomputable def initState : EncoderState where
  encoder_received := false
  initialised_ticks_left := false
  total_ticks_left := 0
  initial_ticks_left := 0
  wheel_distance_left := 0
  initialised_ticks_right := false
  total_ticks_right := 0
  initial_ticks_right := 0
  wheel_distance_right := 0
  theta := 0
  transform_msg := none

/-- The tail of `cb_encoder_to_transform` after the wheel branches: the
heading estimation `self.theta = np.mod((L - R) / baseline, 2*pi)`, the
construction of `self.transform_msg`, and `self.encoder_received = True`. -/
noncomputable def estimate (p : Params) (s : EncoderState) (msg : WheelMsg) : EncoderState :=
  { s with
    theta := fmod ((s.wheel_distance_left - s.wheel_distance_right) / p.baseline)
      (2 * Real.pi)
    transform_msg := some
      { stamp := msg.stamp, frame_id := "map", child_frame_id := "encoder_baselink" }
    encoder_received := true }

/-- `cb_encoder_to_transform(self, msg, wheel)`.  The `left` and `right`
branches first seed the tracker on its first tick, then add
`2 * pi * radius * dN_ticks / encoder_resolution` to the wheel distance
and store the new tick count; an unknown wheel name raises `NameError`
before any field has been assigned. -/
noncomputable def cb_encoder_to_transform (p : Params) (s : EncoderState) (msg : WheelMsg)
    (wheel : String) : Except EncoderState EncoderState :=
  if wheel = "left" then
    let s1 := if s.initialised_ticks_left then s else
      { s with total_ticks_left := msg.data, initial_ticks_left := msg.data,
               initialised_ticks_left := true }
    let dN_ticks_left : ℤ := msg.data - s1.total_ticks_left
    let s2 := { s1 with wheel_distance_left := s1.wheel_distance_left +
      2 * Real.pi * p.radius * (dN_ticks_left : ℝ) / (encoder_resolution : ℝ) }
    let s3 := { s2 with total_ticks_left := msg.data }
    Except.ok (estimate p s3 msg)
  else if wheel = "right" then
    let s1 := if s.initialised_ticks_right then s else
      { s with total_ticks_right := msg.data, initial_ticks_right := msg.data,
               initialised_ticks_right := true }
    let dN_ticks_right : ℤ := msg.data - s1.total_ticks_right
    let s2 := { s1 with wheel_distance_right := s1.wheel_distance_right +
      2 * Real.pi * p.radius * (dN_ticks_right : ℝ) / (encoder_resolution : ℝ) }
    let s3 := { s2 with total_ticks_right := msg.data }
    Except.ok (estimate p s3 msg)
  else
    Except.error s

/-- The node state after a callback invocation, whether it returned
normally or raised: on `raise` the Python object keeps the state the
exception left behind. -/
noncomputable def cbRun (p : Params) (s : EncoderState) (msg : WheelMsg) (wheel : String) :
    EncoderState :=
  match cb_encoder_to_transform p s msg wheel with
  | Except.ok s' => s'
  | Except.error s' => s'

/-- The two output channels of the run loop: `self.pub_transform.publish`
and `self.broadcaster.sendTransform`. -/
inductive Channel where
  | pub
  | broadcast
deriving DecidableEq

/-- One cycle of the `run` loop: if `encoder_received` publish
`transform_msg` on the publisher and broadcast it, otherwise do
nothing.  The loop body assigns no instance field. -/
def run_cycle (s : EncoderState) : List (Channel × Option TransformMsg) :=
  if s.encoder_received then
    [(Channel.pub, s.transform_msg), (Channel.broadcast, s.transform_msg)]
  else
    []

/-- An event the node reacts to: a tick message dispatched to the
callback with its wheel tag, or one cycle of the publish loop. -/
inductive Event where
  | tick (msg : WheelMsg) (wheel : String)
  | cycle

/-- State transition of the node on one event.  A publish cycle mutates
nothing; a tick event leaves the node in the state the callback
produced (also when the callback raised). -/
noncomputable def stepState (p : Params) (s : EncoderState) : Event → EncoderState
  | Event.tick msg wheel => cbRun p s msg wheel
  | Event.cycle => s

/-- Deliver a list of tick messages to one wheel, in order. -/
noncomputable def runTicks (p : Params) (wheel : String) (s : EncoderState)
    (msgs : List WheelMsg) : EncoderState :=
  msgs.foldl (fun st m => cbRun p st m wheel) s

/-- The raw tick value of the last message of a list, or `d` if the
list is empty. -/
def lastData (d : ℤ) (msgs : List WheelMsg) : ℤ :=
  ((msgs.getLast?).map (fun m => m.data)).getD d

/-- Concrete calibration used to exhibit states: baseline 1 m and a
wheel radius of `135 / 2` m, so that one tick advances the wheel by
exactly `pi` meters. -/
noncomputable def pBig : Params := { baseline := 1, radius := 135 / 2 }

/-- The node state reached from `__init__` by two left-wheel ticks
(raw counts 0 then 1) under the calibration `pBig`: the left wheel
distance is then `pi` and the heading is `pi`. -/
noncomputable def sTwoLeftTicks : EncoderState :=
  cbRun pBig (cbRun pBig initState ⟨0, 0⟩ "left") ⟨1, 1⟩ "left"

/- ### Helper lemmas -/

lemma fmod_eq_fract (a b : ℝ) (hb : b ≠ 0) : fmod a b = b * Int.fract (a / b) := by
  unfold fmod Int.fract
  field_simp

lemma fmod_nonneg (a b : ℝ) (hb : 0 < b) : 0 ≤ fmod a b := by
  rw [fmod_eq_fract a b hb.ne']
  exact mul_nonneg hb.le (Int.fract_nonneg _)

lemma fmod_lt (a b : ℝ) (hb : 0 < b) : fmod a b < b := by
  rw [fmod_eq_fract a b hb.ne']
  calc b * Int.fract (a / b) < b * 1 := mul_lt_mul_of_pos_left (Int.fract_lt_one _) hb
    _ = b := mul_one b

lemma two_pi_pos : (0:ℝ) < 2 * Real.pi := by positivity

/-- The `left` branch of the callback on a not-yet-initialised tracker. -/
lemma cb_left_not_init (p : Params) (s : EncoderState) (m : WheelMsg)
    (h0 : s.initialised_ticks_left = false) :
    cb_encoder_to_transform p s m "left" = Except.ok (estimate p
      { s with initialised_ticks_left := true, initial_ticks_left := m.data,
               total_ticks_left := m.data,
               wheel_distance_left := s.wheel_distance_left +
                 2 * Real.pi * p.radius * ((m.data - m.data : ℤ) : ℝ) /
                   (encoder_resolution : ℝ) } m) := by
  simp [cb_encoder_to_transform, h0]

/-- The `left` branch of the callback on an initialised tracker. -/
lemma cb_left_init (p : Params) (s : EncoderState) (m : WheelMsg)
    (h0 : s.initialised_ticks_left = true) :
    cb_encoder_to_transform p s m "left" = Except.ok (estimate p
      { s with total_ticks_left := m.data,
               wheel_distance_left := s.wheel_distance_left +
                 2 * Real.pi * p.radius * ((m.data - s.total_ticks_left : ℤ) : ℝ) /
                   (encoder_resolution : ℝ) } m) := by
  simp [cb_encoder_to_transform, h0]

/-- The `right` branch of the callback on a not-yet-initialised tracker. -/
lemma cb_right_not_init (p : Params) (s : EncoderState) (m : WheelMsg)
    (h0 : s.initialised_ticks_right = false) :
    cb_encoder_to_transform p s m "right" = Except.ok (estimate p
      { s with initialised_ticks_right := true, initial_ticks_right := m.data,
               total_ticks_right := m.data,
               wheel_distance_right := s.wheel_distance_right +
                 2 * Real.pi * p.radius * ((m.data - m.data : ℤ) : ℝ) /
                   (encoder_resolution : ℝ) } m) := by
  simp [cb_encoder_to_transform, h0]

/-- The `right` branch of the callback on an initialised tracker. -/
lemma cb_right_init (p : Params) (s : EncoderState) (m : WheelMsg)
    (h0 : s.initialised_ticks_right = true) :
    cb_encoder_to_transform p s m "right" = Except.ok (estimate p
      { s with total_ticks_right := m.data,
               wheel_distance_right := s.wheel_distance_right +
                 2 * Real.pi * p.radius * ((m.data - s.total_ticks_right : ℤ) : ℝ) /
                   (encoder_resolution : ℝ) } m) := by
  simp [cb_encoder_to_transform, h0]

/-- The callback on an unknown wheel name takes the `raise` branch,
with the node state untouched. -/
lemma cb_unknown (p : Params) (s : EncoderState) (m : WheelMsg) (w : String)
    (h1 : w ≠ "left") (h2 : w ≠ "right") :
    cb_encoder_to_transform p s m w = Except.error s := by
  simp [cb_encoder_to_transform, h1, h2]

/-- Every normal return of the callback is `estimate` applied to some
tracker state and the incoming message. -/
lemma cb_ok_estimate (p : Params) (s : EncoderState) (m : WheelMsg) (w : String)
    (s' : EncoderState) (h : cb_encoder_to_transform p s m w = Except.ok s') :
    ∃ t : EncoderState, s' = estimate p t m := by
  by_cases hw : w = "left"
  · subst hw
    cases h0 : s.initialised_ticks_left
    · rw [cb_left_not_init p s m h0] at h
      injection h with h
      exact ⟨_, h.symm⟩
    · rw [cb_left_init p s m h0] at h
      injection h with h
      exact ⟨_, h.symm⟩
  by_cases hw2 : w = "right"
  · subst hw2
    cases h0 : s.initialised_ticks_right
    · rw [cb_right_not_init p s m h0] at h
      injection h with h
      exact ⟨_, h.symm⟩
    · rw [cb_right_init p s m h0] at h
      injection h with h
      exact ⟨_, h.symm⟩
  rw [cb_unknown p s m w hw hw2] at h
  simp at h

/-- If the callback raised, the state it left behind is the input state. -/
lemma cb_error_eq (p : Params) (s : EncoderState) (m : WheelMsg) (w : String)
    (e : EncoderState) (h : cb_encoder_to_transform p s m w = Except.error e) :
    e = s := by
  by_cases hw : w = "left"
  · subst hw
    cases h0 : s.initialised_ticks_left
    · rw [cb_left_not_init p s m h0] at h
      simp at h
    · rw [cb_left_init p s m h0] at h
      simp at h
  by_cases hw2 : w = "right"
  · subst hw2
    cases h0 : s.initialised_ticks_right
    · rw [cb_right_not_init p s m h0] at h
      simp at h
    · rw [cb_right_init p s m h0] at h
      simp at h
  rw [cb_unknown p s m w hw hw2] at h
  injection h with h
  exact h.symm

/-- Effect of one left tick on an initialised left tracker, through `cbRun`. -/
lemma cbRun_left_init (p : Params) (s : EncoderState) (m : WheelMsg)
    (h0 : s.initialised_ticks_left = true) :
    (cbRun p s m "left").wheel_distance_left = s.wheel_distance_left +
        2 * Real.pi * p.radius * ((m.data - s.total_ticks_left : ℤ) : ℝ) /
          (encoder_resolution : ℝ) ∧
      (cbRun p s m "left").total_ticks_left = m.data ∧
      (cbRun p s m "left").initialised_ticks_left = true := by
  unfold cbRun
  rw [cb_left_init p s m h0]
  simp [estimate, h0]

/-- Effect of the seeding left tick, through `cbRun`. -/
lemma cbRun_left_not_init (p : Params) (s : EncoderState) (m : WheelMsg)
    (h0 : s.initialised_ticks_left = false) :
    (cbRun p s m "left").wheel_distance_left = s.wheel_distance_left ∧
      (cbRun p s m "left").total_ticks_left = m.data ∧
      (cbRun p s m "left").initialised_ticks_left = true := by
  unfold cbRun
  rw [cb_left_not_init p s m h0]
  simp [estimate]

/-- Effect of one right tick on an initialised right tracker, through `cbRun`. -/
lemma cbRun_right_init (p : Params) (s : EncoderState) (m : WheelMsg)
    (h0 : s.initialised_ticks_right = true) :
    (cbRun p s m "right").wheel_distance_right = s.wheel_distance_right +
        2 * Real.pi * p.radius * ((m.data - s.total_ticks_right : ℤ) : ℝ) /
          (encoder_resolution : ℝ) ∧
      (cbRun p s m "right").total_ticks_right = m.data ∧
      (cbRun p s m "right").initialised_ticks_right = true := by
  unfold cbRun
  rw [cb_right_init p s m h0]
  simp [estimate, h0]

/-- Effect of the seeding right tick, through `cbRun`. -/
lemma cbRun_right_not_init (p : Params) (s : EncoderState) (m : WheelMsg)
    (h0 : s.initialised_ticks_right = false) :
    (cbRun p s m "right").wheel_distance_right = s.wheel_distance_right ∧
      (cbRun p s m "right").total_ticks_right = m.data ∧
      (cbRun p s m "right").initialised_ticks_right = true := by
  unfold cbRun
  rw [cb_right_not_init p s m h0]
  simp [estimate]

lemma lastData_cons (d : ℤ) (m : WheelMsg) (ms : List WheelMsg) :
    lastData d (m :: ms) = lastData m.data ms := by
  cases ms with
  | nil => simp [lastData]
  | cons m2 ms2 =>
    have hs : (m2 :: ms2).getLast? = some ((m2 :: ms2).getLast (by simp)) :=
      List.getLast?_eq_getLast _ _
    simp [lastData, List.getLast?_cons_cons, hs]

/-- Telescoping of the left wheel distance over a message list, once the
tracker is initialised. -/
lemma runTicks_left_telescope (p : Params) (msgs : List WheelMsg) :
    ∀ s : EncoderState, s.initialised_ticks_left = true →
      (runTicks p "left" s msgs).wheel_distance_left = s.wheel_distance_left +
          2 * Real.pi * p.radius *
            ((lastData s.total_ticks_left msgs - s.total_ticks_left : ℤ) : ℝ) /
            (encoder_resolution : ℝ) ∧
        (runTicks p "left" s msgs).total_ticks_left = lastData s.total_ticks_left msgs ∧
        (runTicks p "left" s msgs).initialised_ticks_left = true := by
  induction msgs with
  | nil =>
    intro s h
    refine ⟨?_, rfl, h⟩
    simp [runTicks, lastData]
  | cons m ms ih =>
    intro s h
    obtain ⟨hd, ht, hi⟩ := cbRun_left_init p s m h
    have hstep : runTicks p "left" s (m :: ms) = runTicks p "left" (cbRun p s m "left") ms := rfl
    obtain ⟨ihd, iht, ihi⟩ := ih (cbRun p s m "left") hi
    rw [ht] at ihd iht
    rw [hstep, lastData_cons]
    refine ⟨?_, iht, ihi⟩
    rw [ihd, hd]
    push_cast
    ring

/-- Telescoping of the right wheel distance over a message list, once the
tracker is initialised. -/
lemma runTicks_right_telescope (p : Params) (msgs : List WheelMsg) :
    ∀ s : EncoderState, s.initialised_ticks_right = true →
      (runTicks p "right" s msgs).wheel_distance_right = s.wheel_distance_right +
          2 * Real.pi * p.radius *
            ((lastData s.total_ticks_right msgs - s.total_ticks_right : ℤ) : ℝ) /
            (encoder_resolution : ℝ) ∧
        (runTicks p "right" s msgs).total_ticks_right = lastData s.total_ticks_right msgs ∧
        (runTicks p "right" s msgs).initialised_ticks_right = true := by
  induction msgs with
  | nil =>
    intro s h
    refine ⟨?_, rfl, h⟩
    simp [runTicks, lastData]
  | cons m ms ih =>
    intro s h
    obtain ⟨hd, ht, hi⟩ := cbRun_right_init p s m h
    have hstep : runTicks p "right" s (m :: ms) = runTicks p "right" (cbRun p s m "right") ms := rfl
    obtain ⟨ihd, iht, ihi⟩ := ih (cbRun p s m "right") hi
    rw [ht] at ihd iht
    rw [hstep, lastData_cons]
    refine ⟨?_, iht, ihi⟩
    rw [ihd, hd]
    push_cast
    ring

/-- A valid wheel name never takes the `raise` branch. -/
lemma cb_left_isOk (p : Params) (s : EncoderState) (m : WheelMsg) :
    (cb_encoder_to_transform p s m "left").isOk = true := by
  cases h0 : s.initialised_ticks_left
  · rw [cb_left_not_init p s m h0]; rfl
  · rw [cb_left_init p s m h0]; rfl

/-- A valid wheel name never takes the `raise` branch. -/
lemma cb_right_isOk (p : Params) (s : EncoderState) (m : WheelMsg) :
    (cb_encoder_to_transform p s m "right").isOk = true := by
  cases h0 : s.initialised_ticks_right
  · rw [cb_right_not_init p s m h0]; rfl
  · rw [cb_right_init p s m h0]; rfl

/-- A callback invocation leaves `encoder_received` true once it is true
(a normal return sets it to true; a raise leaves the fields alone). -/
lemma cbRun_received (p : Params) (s : EncoderState) (m : WheelMsg) (w : String)
    (h : s.encoder_received = true) : (cbRun p s m w).encoder_received = true := by
  unfold cbRun
  cases hcb : cb_encoder_to_transform p s m w with
  | ok s' =>
    obtain ⟨t, rfl⟩ := cb_ok_estimate p s m w s' hcb
    simp [estimate]
  | error e =>
    rw [cb_error_eq p s m w e hcb]
    exact h

/-- No event of the node ever resets `encoder_received`. -/
lemma foldl_received (p : Params) (evs : List Event) :
    ∀ s : EncoderState, s.encoder_received = true →
      ((evs.foldl (stepState p) s).encoder_received = true) := by
  induction evs with
  | nil => intro s h; exact h
  | cons e evs ih =>
    intro s h
    cases e with
    | tick m w => exact ih _ (cbRun_received p s m w h)
    | cycle => exact ih _ h

/-- The heading invariant: whenever `encoder_received` holds, `theta` is
the wrapped ratio of the current wheel distances.  Preserved by every
event. -/
lemma step_theta_inv (p : Params) (s : EncoderState) (e : Event)
    (h : s.encoder_received = true →
      s.theta = fmod ((s.wheel_distance_left - s.wheel_distance_right) / p.baseline)
        (2 * Real.pi)) :
    (stepState p s e).encoder_received = true →
      (stepState p s e).theta = fmod
        (((stepState p s e).wheel_distance_left - (stepState p s e).wheel_distance_right)
          / p.baseline) (2 * Real.pi) := by
  cases e with
  | cycle => exact h
  | tick m w =>
    simp only [stepState, cbRun]
    cases hcb : cb_encoder_to_transform p s m w with
    | ok s' =>
      obtain ⟨t, rfl⟩ := cb_ok_estimate p s m w s' hcb
      intro _
      simp [estimate]
    | error e' =>
      have he := cb_error_eq p s m w e' hcb
      subst he
      exact h

/-- The heading invariant propagated along any event sequence. -/
lemma foldl_theta_inv (p : Params) (evs : List Event) :
    ∀ s : EncoderState,
      (s.encoder_received = true →
        s.theta = fmod ((s.wheel_distance_left - s.wheel_distance_right) / p.baseline)
          (2 * Real.pi)) →
      ((evs.foldl (stepState p) s).encoder_received = true →
        (evs.foldl (stepState p) s).theta = fmod
          (((evs.foldl (stepState p) s).wheel_distance_left -
            (evs.foldl (stepState p) s).wheel_distance_right) / p.baseline)
          (2 * Real.pi)) := by
  induction evs with
  | nil => intro s hs; exact hs
  | cons e l ih => intro s hs; exact ih _ (step_theta_inv p s e hs)

/-- The wheel distances of the concrete two-tick state. -/
lemma sTwoLeftTicks_distances :
    sTwoLeftTicks.wheel_distance_left = Real.pi ∧
      sTwoLeftTicks.wheel_distance_right = 0 ∧
      sTwoLeftTicks.theta = fmod Real.pi (2 * Real.pi) := by
  refine ⟨?_, ?_, ?_⟩
  · simp [sTwoLeftTicks, pBig, cbRun, cb_encoder_to_transform, estimate, initState,
      encoder_resolution]
    ring
  · simp [sTwoLeftTicks, pBig, cbRun, cb_encoder_to_transform, estimate, initState,
      encoder_resolution]
  · simp [sTwoLeftTicks, pBig, cbRun, cb_encoder_to_transform, estimate, initState,
      encoder_resolution]
    congr 1
    ring

lemma fmod_pi_two_pi : fmod Real.pi (2 * Real.pi) = Real.pi := by
  unfold fmod
  have hhalf : Real.pi / (2 * Real.pi) = 1 / 2 := by
    rw [div_mul_eq_div_div_swap, div_self Real.pi_ne_zero]
  rw [hhalf]
  norm_num

lemma fmod_two_pi_pi : fmod (2 * Real.pi) Real.pi = 0 := by
  unfold fmod
  have h2 : (2 * Real.pi) / Real.pi = 2 := by
    rw [mul_div_assoc, div_self Real.pi_ne_zero, mul_one]
  rw [h2]
  have hf : ⌊(2:ℝ)⌋ = 2 := by norm_num
  rw [hf]
  push_cast
  ring

/- ### Claims -/

/-- C1: after every successfully processed tick event (wheel tag `left`
or `right`), with `baseline ≠ 0`, the stored heading `theta` equals
`mod((wheel_distance_left - wheel_distance_right) / baseline, 2 * pi)`
and therefore lies in `[0, 2 * pi)`, for all accumulated distances. -/
theorem C1_theta_mod_and_range (p : Params) (s : EncoderState) (m : WheelMsg)
    (w : String) (s' : EncoderState) (hb : p.baseline ≠ 0)
    (h : cb_encoder_to_transform p s m w = Except.ok s') :
    s'.theta = fmod ((s'.wheel_distance_left - s'.wheel_distance_right) / p.baseline)
        (2 * Real.pi) ∧
      0 ≤ s'.theta ∧ s'.theta < 2 * Real.pi := by
  obtain ⟨t, rfl⟩ := cb_ok_estimate p s m w s' h
  refine ⟨by simp [estimate], ?_, ?_⟩
  · simpa [estimate] using fmod_nonneg ((t.wheel_distance_left - t.wheel_distance_right)
      / p.baseline) (2 * Real.pi) two_pi_pos
  · simpa [estimate] using fmod_lt ((t.wheel_distance_left - t.wheel_distance_right)
      / p.baseline) (2 * Real.pi) two_pi_pos

theorem C1_witness :
    0 ≤ (cbRun ⟨1, 1⟩ initState ⟨3, 5⟩ "left").theta ∧
      (cbRun ⟨1, 1⟩ initState ⟨3, 5⟩ "left").theta < 2 * Real.pi :=
  ⟨(C1_theta_mod_and_range ⟨1, 1⟩ initState ⟨3, 5⟩ "left"
      (cbRun ⟨1, 1⟩ initState ⟨3, 5⟩ "left") one_ne_zero rfl).2.1,
    (C1_theta_mod_and_range ⟨1, 1⟩ initState ⟨3, 5⟩ "left"
      (cbRun ⟨1, 1⟩ initState ⟨3, 5⟩ "left") one_ne_zero rfl).2.2⟩

/-- C3: the first tick event processed for a wheel seeds that wheel's
last-tick state with the raw value, marks it initialised, and leaves its
accumulated distance unchanged (so still `0.0`), for any raw value. -/
theorem C3_first_tick_seeds (p : Params) (s : EncoderState) (m : WheelMsg) :
    (s.initialised_ticks_left = false → ∀ s' : EncoderState,
      cb_encoder_to_transform p s m "left" = Except.ok s' →
        s'.total_ticks_left = m.data ∧ s'.initial_ticks_left = m.data ∧
          s'.initialised_ticks_left = true ∧
          s'.wheel_distance_left = s.wheel_distance_left ∧
          (s.wheel_distance_left = 0 → s'.wheel_distance_left = 0)) ∧
    (s.initialised_ticks_right = false → ∀ s' : EncoderState,
      cb_encoder_to_transform p s m "right" = Except.ok s' →
        s'.total_ticks_right = m.data ∧ s'.initial_ticks_right = m.data ∧
          s'.initialised_ticks_right = true ∧
          s'.wheel_distance_right = s.wheel_distance_right ∧
          (s.wheel_distance_right = 0 → s'.wheel_distance_right = 0)) := by
  constructor
  · intro h0 s' h
    rw [cb_left_not_init p s m h0] at h
    injection h with h
    subst h
    refine ⟨by simp [estimate], by simp [estimate], by simp [estimate], ?_, ?_⟩
    · simp [estimate]
    · intro hz
      simp [estimate, hz]
  · intro h0 s' h
    rw [cb_right_not_init p s m h0] at h
    injection h with h
    subst h
    refine ⟨by simp [estimate], by simp [estimate], by simp [estimate], ?_, ?_⟩
    · simp [estimate]
    · intro hz
      simp [estimate, hz]

theorem C3_witness :
    (cbRun ⟨1, 1⟩ initState ⟨7, 2⟩ "left").total_ticks_left = 7 ∧
      (cbRun ⟨1, 1⟩ initState ⟨7, 2⟩ "left").initial_ticks_left = 7 ∧
      (cbRun ⟨1, 1⟩ initState ⟨7, 2⟩ "left").initialised_ticks_left = true ∧
      (cbRun ⟨1, 1⟩ initState ⟨7, 2⟩ "left").wheel_distance_left = 0 := by
  have h := (C3_first_tick_seeds ⟨1, 1⟩ initState ⟨7, 2⟩).1 rfl
    (cbRun ⟨1, 1⟩ initState ⟨7, 2⟩ "left") rfl
  exact ⟨h.1, h.2.1, h.2.2.1, h.2.2.2.2 rfl⟩

/-- C4: `encoder_received` is false at construction, becomes true at the
end of the first successfully processed tick event, and once true is
never reset by later tick events or publish cycles. -/
theorem C4_ready_flag (p : Params) (s : EncoderState) (m : WheelMsg) (w : String)
    (s' : EncoderState) (h : cb_encoder_to_transform p s m w = Except.ok s') :
    initState.encoder_received = false ∧ s'.encoder_received = true ∧
      ∀ evs : List Event, ((evs.foldl (stepState p) s').encoder_received = true) := by
  obtain ⟨t, rfl⟩ := cb_ok_estimate p s m w s' h
  refine ⟨rfl, by simp [estimate], fun evs => ?_⟩
  exact foldl_received p evs _ (by simp [estimate])

theorem C4_witness :
    initState.encoder_received = false ∧
      (cbRun ⟨1, 1⟩ initState ⟨3, 5⟩ "left").encoder_received = true ∧
      (([Event.cycle, Event.tick ⟨4, 6⟩ "right", Event.cycle].foldl (stepState ⟨1, 1⟩)
        (cbRun ⟨1, 1⟩ initState ⟨3, 5⟩ "left")).encoder_received = true) := by
  have h := C4_ready_flag ⟨1, 1⟩ initState ⟨3, 5⟩ "left"
    (cbRun ⟨1, 1⟩ initState ⟨3, 5⟩ "left") rfl
  exact ⟨h.1, h.2.1, h.2.2 [Event.cycle, Event.tick ⟨4, 6⟩ "right", Event.cycle]⟩

/-- C6: a tick event whose wheel tag is neither `left` nor `right` makes
the callback raise (`NameError`) rather than return normally. -/
theorem C6_unknown_wheel_raises (p : Params) (s : EncoderState) (m : WheelMsg)
    (w : String) (h1 : w ≠ "left") (h2 : w ≠ "right") :
    (cb_encoder_to_transform p s m w).isOk = false := by
  rw [cb_unknown p s m w h1 h2]
  rfl

theorem C6_witness :
    (cb_encoder_to_transform ⟨1, 1⟩ initState ⟨0, 0⟩ "up").isOk = false :=
  C6_unknown_wheel_raises ⟨1, 1⟩ initState ⟨0, 0⟩ "up" (by decide) (by decide)

/-- C8: the timestamp carried in the stored transform message is the
timestamp of the tick message itself (header stamp copied from the
message, frames `map` and `encoder_baselink`). -/
theorem C8_transform_timestamp (p : Params) (s : EncoderState) (m : WheelMsg)
    (w : String) (s' : EncoderState)
    (h : cb_encoder_to_transform p s m w = Except.ok s') :
    s'.transform_msg = some
      { stamp := m.stamp, frame_id := "map", child_frame_id := "encoder_baselink" } := by
  obtain ⟨t, rfl⟩ := cb_ok_estimate p s m w s' h
  simp [estimate]

theorem C8_witness :
    (cbRun ⟨1, 1⟩ initState ⟨3, 5⟩ "left").transform_msg = some
      { stamp := 5, frame_id := "map", child_frame_id := "encoder_baselink" } :=
  C8_transform_timestamp ⟨1, 1⟩ initState ⟨3, 5⟩ "left"
    (cbRun ⟨1, 1⟩ initState ⟨3, 5⟩ "left") rfl

/-- C9: a `left` tick event leaves all right-wheel tracker fields
unchanged, and a `right` tick event leaves all left-wheel tracker fields
unchanged, for every prior state and tick value. -/
theorem C9_other_wheel_untouched (p : Params) (s : EncoderState) (m : WheelMsg)
    (s' : EncoderState) :
    (cb_encoder_to_transform p s m "left" = Except.ok s' →
      s'.initialised_ticks_right = s.initialised_ticks_right ∧
        s'.total_ticks_right = s.total_ticks_right ∧
        s'.initial_ticks_right = s.initial_ticks_right ∧
        s'.wheel_distance_right = s.wheel_distance_right) ∧
    (cb_encoder_to_transform p s m "right" = Except.ok s' →
      s'.initialised_ticks_left = s.initialised_ticks_left ∧
        s'.total_ticks_left = s.total_ticks_left ∧
        s'.initial_ticks_left = s.initial_ticks_left ∧
        s'.wheel_distance_left = s.wheel_distance_left) := by
  constructor
  · intro h
    cases h0 : s.initialised_ticks_left
    · rw [cb_left_not_init p s m h0] at h
      injection h with h
      subst h
      simp [estimate]
    · rw [cb_left_init p s m h0] at h
      injection h with h
      subst h
      simp [estimate]
  · intro h
    cases h0 : s.initialised_ticks_right
    · rw [cb_right_not_init p s m h0] at h
      injection h with h
      subst h
      simp [estimate]
    · rw [cb_right_init p s m h0] at h
      injection h with h
      subst h
      simp [estimate]

theorem C9_witness :
    (cbRun ⟨1, 1⟩ initState ⟨9, 4⟩ "left").initialised_ticks_right
        = initState.initialised_ticks_right ∧
      (cbRun ⟨1, 1⟩ initState ⟨9, 4⟩ "left").total_ticks_right
        = initState.total_ticks_right ∧
      (cbRun ⟨1, 1⟩ initState ⟨9, 4⟩ "left").initial_ticks_right
        = initState.initial_ticks_right ∧
      (cbRun ⟨1, 1⟩ initState ⟨9, 4⟩ "left").wheel_distance_right
        = initState.wheel_distance_right :=
  (C9_other_wheel_untouched ⟨1, 1⟩ initState ⟨9, 4⟩
    (cbRun ⟨1, 1⟩ initState ⟨9, 4⟩ "left")).1 rfl

/-- C10: the callback with an unrecognized wheel tag raises before any
state mutation: the state carried out of the raise is exactly the
pre-call state, every field included. -/
theorem C10_raise_is_atomic (p : Params) (s : EncoderState) (m : WheelMsg)
    (w : String) (h1 : w ≠ "left") (h2 : w ≠ "right") :
    cb_encoder_to_transform p s m w = Except.error s :=
  cb_unknown p s m w h1 h2

theorem C10_witness :
    cb_encoder_to_transform ⟨1, 1⟩ initState ⟨0, 0⟩ "wrong" = Except.error initState :=
  C10_raise_is_atomic ⟨1, 1⟩ initState ⟨0, 0⟩ "wrong" (by decide) (by decide)

/-- C5: a publish-loop cycle emits nothing while `encoder_received` is
false; once it is true, each cycle emits the latest stored transform
message exactly once on the publisher and once on the broadcaster, and a
cycle leaves the state (hence the next cycle's output) unchanged. -/
theorem C5_publish_cycle (p : Params) (s : EncoderState) :
    (s.encoder_received = false → run_cycle s = []) ∧
    (s.encoder_received = true →
      run_cycle s = [(Channel.pub, s.transform_msg), (Channel.broadcast, s.transform_msg)] ∧
        (run_cycle s).countP (fun e => decide (e.1 = Channel.pub)) = 1 ∧
        (run_cycle s).countP (fun e => decide (e.1 = Channel.broadcast)) = 1) ∧
    stepState p s Event.cycle = s ∧
    run_cycle (stepState p s Event.cycle) = run_cycle s := by
  refine ⟨fun h => by simp [run_cycle, h], fun h => ?_, rfl, rfl⟩
  refine ⟨by simp [run_cycle, h], ?_, ?_⟩ <;>
    simp [run_cycle, h, List.countP_cons]

theorem C5_witness :
    run_cycle initState = [] ∧
      run_cycle (cbRun ⟨1, 1⟩ initState ⟨3, 5⟩ "left") =
        [(Channel.pub, (cbRun ⟨1, 1⟩ initState ⟨3, 5⟩ "left").transform_msg),
         (Channel.broadcast, (cbRun ⟨1, 1⟩ initState ⟨3, 5⟩ "left").transform_msg)] :=
  ⟨(C5_publish_cycle ⟨1, 1⟩ initState).1 rfl,
    ((C5_publish_cycle ⟨1, 1⟩ (cbRun ⟨1, 1⟩ initState ⟨3, 5⟩ "left")).2.1 rfl).1⟩

/-- C2: for either wheel, starting from an uninitialised tracker with
zero accumulated distance, processing any nonempty sequence of tick
messages leaves the accumulated distance at
`2 * pi * radius / encoder_resolution * (lastTick - firstTick)`:
intermediate readings telescope away, and a valid wheel tag never makes
the callback raise (negative deltas included). -/
theorem C2_telescoping_distance (p : Params) (s : EncoderState) (m0 : WheelMsg)
    (msgs : List WheelMsg) :
    (s.initialised_ticks_left = false → s.wheel_distance_left = 0 →
      (runTicks p "left" s (m0 :: msgs)).wheel_distance_left =
        2 * Real.pi * p.radius / (encoder_resolution : ℝ) *
          ((lastData m0.data msgs - m0.data : ℤ) : ℝ)) ∧
    (s.initialised_ticks_right = false → s.wheel_distance_right = 0 →
      (runTicks p "right" s (m0 :: msgs)).wheel_distance_right =
        2 * Real.pi * p.radius / (encoder_resolution : ℝ) *
          ((lastData m0.data msgs - m0.data : ℤ) : ℝ)) ∧
    (∀ (t : EncoderState) (m : WheelMsg),
      (cb_encoder_to_transform p t m "left").isOk = true ∧
        (cb_encoder_to_transform p t m "right").isOk = true) := by
  refine ⟨fun h0 hd => ?_, fun h0 hd => ?_,
    fun t m => ⟨cb_left_isOk p t m, cb_right_isOk p t m⟩⟩
  · obtain ⟨hd1, ht1, hi1⟩ := cbRun_left_not_init p s m0 h0
    have hstep : runTicks p "left" s (m0 :: msgs) =
        runTicks p "left" (cbRun p s m0 "left") msgs := rfl
    obtain ⟨ihd, iht, ihi⟩ := runTicks_left_telescope p msgs (cbRun p s m0 "left") hi1
    rw [ht1] at ihd
    rw [hstep, ihd, hd1, hd]
    push_cast
    ring
  · obtain ⟨hd1, ht1, hi1⟩ := cbRun_right_not_init p s m0 h0
    have hstep : runTicks p "right" s (m0 :: msgs) =
        runTicks p "right" (cbRun p s m0 "right") msgs := rfl
    obtain ⟨ihd, iht, ihi⟩ := runTicks_right_telescope p msgs (cbRun p s m0 "right") hi1
    rw [ht1] at ihd
    rw [hstep, ihd, hd1, hd]
    push_cast
    ring

theorem C2_witness :
    (runTicks ⟨1, 1⟩ "left" initState [⟨0, 0⟩, ⟨135, 1⟩, ⟨100, 2⟩]).wheel_distance_left =
      2 * Real.pi * (1:ℝ) / (encoder_resolution : ℝ) *
        ((lastData 0 [⟨135, 1⟩, ⟨100, 2⟩] - 0 : ℤ) : ℝ) :=
  (C2_telescoping_distance ⟨1, 1⟩ initState ⟨0, 0⟩ [⟨135, 1⟩, ⟨100, 2⟩]).1 rfl rfl

/-- C7, as the spec writes it, is false on the code: in the reachable
state after two left ticks under `pBig` the stored heading is `pi`,
while `mod(2 * pi, (leftDistance - rightDistance) / baseline)` — the
modulus with `2 * pi` as its *first* argument — is `0`. -/
theorem C7_counterexample :
    sTwoLeftTicks =
        [Event.tick ⟨0, 0⟩ "left", Event.tick ⟨1, 1⟩ "left"].foldl (stepState pBig)
          initState ∧
      sTwoLeftTicks.encoder_received = true ∧
      sTwoLeftTicks.theta ≠ fmod (2 * Real.pi)
        ((sTwoLeftTicks.wheel_distance_left - sTwoLeftTicks.wheel_distance_right)
          / pBig.baseline) := by
  refine ⟨rfl, rfl, ?_⟩
  obtain ⟨hL, hR, hT⟩ := sTwoLeftTicks_distances
  have hb : pBig.baseline = 1 := rfl
  rw [hT, hL, hR, hb, fmod_pi_two_pi]
  have harg : (Real.pi - 0) / 1 = Real.pi := by ring
  rw [harg, fmod_two_pi_pi]
  exact Real.pi_ne_zero

/-- C7 amended: in every reachable state with `encoder_received` set
(i.e. after at least one successful tick event), the stored heading
equals `mod((leftDistance - rightDistance) / baseline, 2 * pi)` — the
modulus of the distance ratio by `2 * pi`, with the arguments in that
order — and no other path (publish cycles, raising callbacks) ever
assigns it. -/
theorem C7_amended_theta_invariant (p : Params) (evs : List Event)
    (h : (evs.foldl (stepState p) initState).encoder_received = true) :
    (evs.foldl (stepState p) initState).theta = fmod
      (((evs.foldl (stepState p) initState).wheel_distance_left -
        (evs.foldl (stepState p) initState).wheel_distance_right) / p.baseline)
      (2 * Real.pi) :=
  foldl_theta_inv p evs initState (fun hf => by simp [initState] at hf) h

theorem C7_amended_witness :
    ([Event.tick ⟨3, 5⟩ "left"].foldl (stepState ⟨1, 1⟩) initState).theta = fmod
      ((([Event.tick ⟨3, 5⟩ "left"].foldl (stepState ⟨1, 1⟩) initState).wheel_distance_left -
        ([Event.tick ⟨3, 5⟩ "left"].foldl (stepState ⟨1, 1⟩)
          initState).wheel_distance_right) / (⟨1, 1⟩ : Params).baseline)
      (2 * Real.pi) :=
  C7_amended_theta_invariant ⟨1, 1⟩ [Event.tick ⟨3, 5⟩ "left"] rfl

end EncoderLocalization
